import Mathlib

/-!
# Verification of the Pi-hole lists sync action

A shallow embedding of `src/index.js` (the current variant, cited by the
specification): a one-shot reconciliation tool that authenticates against a
Pi-hole appliance, replaces its blocklists with the ones from a configuration
file, patches local DNS sections, and logs out.

The embedding models each HTTP call as a `Request` value appended to a trace.
The environment (`Env`) answers each request with a sequence of per-attempt
outcomes, so that the transport layer's retry policy (`axios-retry` with
`retries: 3` and `retryCondition: () => true`) can be modelled faithfully:
an attempt either fails at the network level or yields an HTTP `Response`,
and the axios promise resolves exactly when the status is 2xx.

Thrown JavaScript errors are modelled by `RunError`:
* `RunError.axios e` — a rejected axios promise (network failure after
  retries, or a non-2xx response);
* `RunError.thrown m` — the explicit `throw new Error(...)` sites of the
  source, one constructor per throw site, with `renderErrMsg` reproducing the
  exact message template;
* `RunError.referenceError n` — a JavaScript `ReferenceError` caused by
  referencing an identifier that is not in scope (this actually occurs in
  `patchPiholeConfig`, whose catch block reads `updateResponse`, a `const`
  scoped to the try block);
* `RunError.typeError` — a JavaScript `TypeError` from destructuring a
  response body of an unexpected shape.
-/

namespace PiholeSync

/-- One remote blocklist registration, as returned by `GET /lists`:
`{address, type}` (the source reads `list.address` and `list.type`). -/
structure ListEntry where
  address : String
  type : String
deriving DecidableEq

/-- One element of the `POST /lists:batchDelete` body: the source maps each
fetched list to `{item: list.address, type: list.type}`. -/
structure DeleteItem where
  item : String
  type : String
deriving DecidableEq

/-- One entry of the `localDnsRecords` configuration section. -/
structure DnsRecord where
  domain : String
  ip : String
deriving DecidableEq

/-- One entry of the `localDnsCnames` configuration section. -/
structure CnameRecord where
  domain : String
  target : String
deriving DecidableEq

/-- The parsed configuration file (DesiredConfig). Each section is optional;
`none` models the key being absent from the YAML document. -/
structure PiholeConfig where
  blocklists : Option (List String) := none
  localDnsRecords : Option (List DnsRecord) := none
  localDnsCnames : Option (List CnameRecord) := none
deriving DecidableEq

/-- The `dns` object sent in the body of `PATCH /config`. A `none` field
models the source deleting the key (`delete config.dns.hosts`) so that it is
absent from the JSON payload. -/
structure DnsPatchPayload where
  hosts : Option (List String)
  cnames : Option (List String)
deriving DecidableEq

/-- Payload data of an HTTP response, as far as the source inspects it. -/
inductive RespData where
  | noData
  | lists (lists : List ListEntry)
  | session (sid : String) (validity : Int)
deriving DecidableEq

/-- An HTTP response: status code, reason text, body. -/
structure Response where
  status : Nat
  statusText : String
  data : RespData
deriving DecidableEq

/-- A rejected axios promise: either a network/timeout failure (no response
attached) or a response whose status failed axios's `validateStatus`
(outside 2xx), in which case `error.response` is attached. -/
inductive AxiosError where
  | network
  | badStatus (resp : Response)
deriving DecidableEq

/-- The explicit `throw new Error(...)` sites of the source, one constructor
per site, carrying the data interpolated into the message template. -/
inductive ErrMsg where
  | configNotFound (path : String)
  | fetchListsFailed (status : Nat) (reason : String)
  | deleteListsFailed (status : Nat) (reason : String)
  | gravityFailed (status : Nat) (reason : String)
  | authFailed (status : Nat) (reason : String)
  | configPatchPermission
deriving DecidableEq

/-- The exact message strings of the source's `throw new Error(...)` sites. -/
def renderErrMsg : ErrMsg → String
  | .configNotFound p => "Pi-hole config file not found: " ++ p
  | .fetchListsFailed s r => "Failed to fetch lists with status: " ++ toString s ++ " - " ++ r
  | .deleteListsFailed s r => "Failed to delete lists with status: " ++ toString s ++ " - " ++ r
  | .gravityFailed s r => "Failed to update gravity with status: " ++ toString s ++ " - " ++ r
  | .authFailed s r => "Authentication failed with status: " ++ toString s ++ " - " ++ r
  | .configPatchPermission => "❌ Could not update Pi-hole config: Please set webserver.api.app_sudo to true in Pi-hole settings (System > Settings > All Settings)."

/-- A thrown JavaScript value, as it propagates through the async call chain. -/
inductive RunError where
  | axios (e : AxiosError)
  | thrown (m : ErrMsg)
  | referenceError (name : String)
  | typeError
deriving DecidableEq

/-- The HTTP calls the source can issue, with the request data the remote
side would observe. -/
inductive Request where
  | postAuth
  | deleteAuth
  | getLists
  | batchDelete (items : List DeleteItem)
  | postList (address : String) (type : String)
  | postGravity
  | getConfig
  | patchConfig (payload : DnsPatchPayload)
deriving DecidableEq

/-! ## Transport layer: axios with axios-retry

`axiosRetry(axiosInstance, { retries: 3, retryCondition: () => true })`:
every failed attempt (network failure or non-2xx response) is retried, up to
3 retries (4 attempts), before the rejection is surfaced to the caller. -/

/-- One transport-level attempt: a network/timeout failure, or an HTTP
response from the server. -/
inductive Attempt where
  | netErr
  | http (resp : Response)

/-- The default `validateStatus` of axios: resolve exactly for 2xx statuses. -/
def validateStatus (status : Nat) : Bool := 200 ≤ status && status < 300

/-- Outcome of a single attempt under axios semantics. -/
def attemptResult : Attempt → Except AxiosError Response
  | .netErr => .error .network
  | .http r => if validateStatus r.status then .ok r else .error (.badStatus r)

/-- The source's `retryCondition: () => true`: retry on every error. -/
def retryCondition (_e : AxiosError) : Bool := true

/-- The source's `retries: 3`. -/
def retries : Nat := 3

/-- The retry loop of axios-retry: attempt `k`, and on error retry (while
fuel remains and `retryCondition` accepts the error). Returns the final
outcome together with the total number of attempts made. -/
def axiosSendAux (att : Nat → Attempt) (k : Nat) : Nat → Except AxiosError Response × Nat
  | 0 =>
    (match attemptResult (att k) with
     | .ok r => (.ok r, k + 1)
     | .error e => (.error e, k + 1))
  | fuel + 1 =>
    match attemptResult (att k) with
    | .ok r => (.ok r, k + 1)
    | .error e =>
      if retryCondition e then axiosSendAux att (k + 1) fuel
      else (.error e, k + 1)

/-- Issue one logical request: run the retry loop over the per-attempt
outcomes the environment provides for it. -/
def axiosSend (att : Nat → Attempt) : Except AxiosError Response × Nat :=
  axiosSendAux att 0 retries

/-- The environment: for each request, the transport-level outcome of each
successive attempt at it. -/
abbrev Env := Request → Nat → Attempt

/-! ## The execution monad

State = the trace of logical HTTP requests issued so far (retries are
internal to the transport and do not appear). Errors short-circuit like a
rejected promise but the trace of already-issued requests is kept. -/

/-- The execution monad of the embedding. -/
def M (α : Type) : Type := List Request → Except RunError α × List Request

/-- Return without issuing requests. -/
def M.pure {α : Type} (a : α) : M α := fun tr => (.ok a, tr)

/-- Sequencing: on error the continuation is skipped, the trace is kept. -/
def M.bind {α β : Type} (x : M α) (f : α → M β) : M β := fun tr =>
  match x tr with
  | (.ok a, tr') => f a tr'
  | (.error e, tr') => (.error e, tr')

/-- Model of `throw` of a JavaScript value. -/
def throwM {α : Type} (e : RunError) : M α := fun tr => (.error e, tr)

/-- Model of `try ... catch ...` around the action `x` with handler `h`. -/
def tryCatch {α : Type} (x : M α) (h : RunError → M α) : M α := fun tr =>
  match x tr with
  | (.ok a, tr') => (.ok a, tr')
  | (.error e, tr') => h e tr'

/-- Issue one logical HTTP request: record it in the trace, run it through
the retrying transport, and either return the resolved response or throw the
axios rejection. -/
def request (env : Env) (req : Request) : M Response := fun tr =>
  match (axiosSend (env req)).1 with
  | .ok r => (.ok r, tr ++ [req])
  | .error e => (.error (.axios e), tr ++ [req])

/-! ## The program, translated function by function from `src/index.js` -/

/-- Source function `fetchListsFromPihole`: GET /lists; non-200 throws; then destructure
`{ lists }` from the body. -/
def fetchListsFromPihole (env : Env) : M (List ListEntry) :=
  M.bind (request env Request.getLists) (fun blocklistResponse =>
    if blocklistResponse.status ≠ 200 then
      throwM (RunError.thrown (ErrMsg.fetchListsFailed blocklistResponse.status blocklistResponse.statusText))
    else
      match blocklistResponse.data with
      | RespData.lists lists => M.pure lists
      | _ => throwM RunError.typeError)

/-- Source function `deleteExistingLists`: no-op on an empty argument; otherwise one bulk
POST /lists:batchDelete with the `{item, type}` pairs; accept 200 or 204. -/
def deleteExistingLists (env : Env) (lists : List ListEntry) : M Unit :=
  if lists.length = 0 then M.pure () else
    M.bind (request env (Request.batchDelete
      (lists.map (fun list => ({ item := list.address, type := list.type } : DeleteItem)))))
      (fun deleteResponse =>
      if deleteResponse.status = 200 ∨ deleteResponse.status = 204 then M.pure ()
      else
        throwM (RunError.thrown (ErrMsg.deleteListsFailed deleteResponse.status deleteResponse.statusText)))

/-- Source function `addBlocklists`: one POST /lists per URL with `type: "block"`, in order.
The resolved response is not inspected. -/
def addBlocklists (env : Env) : List String → M Unit
  | [] => M.pure ()
  | url :: rest =>
    M.bind (request env (Request.postList url "block")) (fun _ =>
      addBlocklists env rest)

/-- Source function `updateGravity`: POST /action/gravity; non-200 throws. -/
def updateGravity (env : Env) : M Unit :=
  M.bind (request env Request.postGravity) (fun gravityResponse =>
    if gravityResponse.status ≠ 200 then
      throwM (RunError.thrown (ErrMsg.gravityFailed gravityResponse.status gravityResponse.statusText))
    else M.pure ())

/-- Source function `applyLists`: skip entirely unless `piholeConfig.blocklists` is an array
(an empty array is an array and is truthy, so it does not skip); otherwise
fetch, delete all fetched entries, create the desired ones, rebuild. -/
def applyLists (env : Env) (piholeConfig : PiholeConfig) : M Unit :=
  match piholeConfig.blocklists with
  | none => M.pure ()
  | some blocklistUrls =>
    M.bind (fetchListsFromPihole env) (fun existingLists =>
      M.bind (deleteExistingLists env existingLists) (fun _ =>
        M.bind (addBlocklists env blocklistUrls) (fun _ =>
          updateGravity env)))

/-- Source function `patchPiholeConfig`: first a warm-up GET /config whose outcome is
discarded (`try { await get } catch (error) {}` — the first /config request
is known to fail on some deployments); then PATCH /config. In the catch
block, a 403 response becomes the actionable permission error; any other
rejection reaches a line that reads `updateResponse`, a `const` scoped to
the try block, so JavaScript raises a ReferenceError there. -/
def patchPiholeConfig (env : Env) (config : DnsPatchPayload) : M Unit :=
  M.bind
    (tryCatch (M.bind (request env Request.getConfig) (fun _ => M.pure ()))
      (fun _ => M.pure ()))
    (fun _ =>
      tryCatch (M.bind (request env (Request.patchConfig config)) (fun _ => M.pure ()))
        (fun error =>
          match error with
          | RunError.axios (AxiosError.badStatus r) =>
            if r.status = 403 then throwM (RunError.thrown ErrMsg.configPatchPermission)
            else throwM (RunError.referenceError "updateResponse")
          | _ => throwM (RunError.referenceError "updateResponse")))

/-- The `hosts` field `applyLocalDnsSettings` builds: present exactly when
`localDnsRecords` is an array, each record serialized as
`record.ip.trim() + " " + record.domain.trim()` (named here; inline in the
source). -/
def dnsHosts (piholeConfig : PiholeConfig) : Option (List String) :=
  match piholeConfig.localDnsRecords with
  | some records => some (records.map (fun record => record.ip.trim ++ " " ++ record.domain.trim))
  | none => none

/-- The `cnames` field `applyLocalDnsSettings` builds: present exactly when
`localDnsCnames` is an array, each record serialized as
`record.domain.trim() + "," + record.target.trim()` (named here; inline in
the source). -/
def dnsCnames (piholeConfig : PiholeConfig) : Option (List String) :=
  match piholeConfig.localDnsCnames with
  | some records => some (records.map (fun record => record.domain.trim ++ "," ++ record.target.trim))
  | none => none

/-- Source function `applyLocalDnsSettings`: build the `dns` patch object with `hosts` only
if `localDnsRecords` is an array (serialized `"ip domain"`, both trimmed),
`cnames` only if `localDnsCnames` is an array (serialized `"domain,target"`,
both trimmed); skip the patch call when both keys were deleted
(`!config.dns.hasOwnProperty("hosts") && !config.dns.hasOwnProperty("cnames")`). -/
def applyLocalDnsSettings (env : Env) (piholeConfig : PiholeConfig) : M Unit :=
  let hosts : Option (List String) := dnsHosts piholeConfig
  let cnames : Option (List String) := dnsCnames piholeConfig
  if hosts.isNone && cnames.isNone then M.pure ()
  else patchPiholeConfig env { hosts := hosts, cnames := cnames }

/-- Source function `authenticateWithPihole`: POST /auth; non-200 throws the authentication
error; then destructure `{ session }` and read `session.sid` (a body of the
wrong shape would raise a TypeError). -/
def authenticateWithPihole (env : Env) : M Unit :=
  M.bind (request env Request.postAuth) (fun authResponse =>
    if authResponse.status ≠ 200 then
      throwM (RunError.thrown (ErrMsg.authFailed authResponse.status authResponse.statusText))
    else
      match authResponse.data with
      | RespData.session _sid _validity => M.pure ()
      | _ => throwM RunError.typeError)

/-- Source function `logoutFromPihole`: DELETE /auth inside a try/catch that only logs the
failure — no error ever escapes. -/
def logoutFromPihole (env : Env) : M Unit :=
  tryCatch (M.bind (request env Request.deleteAuth) (fun _ => M.pure ()))
    (fun _ => M.pure ())

/-- Source function `getPiholeConfig`: reading and YAML-parsing the configuration file,
abstracted as an `Except`: a missing file (or parse failure) is the thrown
error, a document parsing to null is `.ok none`. The source ends with
`return config || {}`, normalizing a null parse to the empty object. -/
def getPiholeConfig (src : Except ErrMsg (Option PiholeConfig)) : M PiholeConfig :=
  match src with
  | .error e => throwM (RunError.thrown e)
  | .ok parsed => M.pure (parsed.getD {})

/-- The body of `run`'s try block: read config, authenticate, reconcile
lists, reconcile DNS. -/
def runBody (env : Env) (src : Except ErrMsg (Option PiholeConfig)) : M Unit :=
  M.bind (getPiholeConfig src) (fun piholeConfig =>
    M.bind (authenticateWithPihole env) (fun _ =>
      M.bind (applyLists env piholeConfig) (fun _ =>
        applyLocalDnsSettings env piholeConfig)))

/-- Source function `run`: the try/catch around the body (`core.setFailed` on error, modelled
as returning `some e`), then `logoutFromPihole()` on every path (the source
does not `await` that call, but it still executes; the single-threaded model
sequences it). The run's result is `none` on success and `some e` when the
action was marked failed with error `e`. -/
def run (env : Env) (src : Except ErrMsg (Option PiholeConfig)) : M (Option RunError) :=
  M.bind
    (tryCatch (M.bind (runBody env src) (fun _ => M.pure Option.none))
      (fun error => M.pure (some error)))
    (fun res =>
      M.bind (logoutFromPihole env) (fun _ =>
        M.pure res))

/-! ## Remote list state

A model of the appliance's blocklist table, used to state the full-replace
invariant: `batchDelete` removes every entry whose `(address, type)` pair is
among the posted items, `POST /lists` appends one entry, and every other
call leaves the table unchanged. -/

/-- Effect of one request on the appliance's blocklist table. -/
def applyRequestOnLists (remote : List ListEntry) : Request → List ListEntry
  | .batchDelete items =>
    remote.filter (fun l => decide (({ item := l.address, type := l.type } : DeleteItem) ∉ items))
  | .postList address type => remote ++ [{ address := address, type := type }]
  | _ => remote

/-- The blocklist table after a trace of requests. -/
def listState (remote : List ListEntry) : List Request → List ListEntry
  | [] => remote
  | req :: rest => listState (applyRequestOnLists remote req) rest

/-- Holds exactly for the four list-reconciliation calls (fetch, bulk
delete, create, rebuild). -/
def isListCall : Request → Bool
  | .getLists => true
  | .batchDelete _ => true
  | .postList _ _ => true
  | .postGravity => true
  | _ => false

/-- Holds exactly for list-creation calls (`POST /lists`). -/
def isCreateCall : Request → Bool
  | .postList _ _ => true
  | _ => false

/-- Holds exactly for the bulk-delete call (`POST /lists:batchDelete`). -/
def isBatchDeleteCall : Request → Bool
  | .batchDelete _ => true
  | _ => false

/-- A sample DNS patch payload, used as a concrete input. -/
def payload0 : DnsPatchPayload := { hosts := some ["192.168.1.10 my.home"], cnames := none }

/-! ## Concrete environments, used as counterexample and witness inputs -/

/-- An environment where every call succeeds on the first attempt: the
remote has no pre-existing lists, authentication yields a session, and every
other endpoint answers 200. -/
def envOk : Env := fun req _ =>
  Attempt.http
    (match req with
     | Request.postAuth => { status := 200, statusText := "OK", data := RespData.session "sid-1" 300 }
     | Request.getLists => { status := 200, statusText := "OK", data := RespData.lists [] }
     | _ => { status := 200, statusText := "OK", data := RespData.noData })

/-- Like `envOk` but with one pre-existing remote list entry and a 204
answer to the bulk delete. -/
def envPre : Env := fun req _ =>
  Attempt.http
    (match req with
     | Request.postAuth => { status := 200, statusText := "OK", data := RespData.session "sid-1" 300 }
     | Request.getLists =>
       { status := 200, statusText := "OK",
         data := RespData.lists [{ address := "https://old.example/u3.txt", type := "block" }] }
     | Request.batchDelete _ => { status := 204, statusText := "No Content", data := RespData.noData }
     | _ => { status := 200, statusText := "OK", data := RespData.noData })

/-- Like `envPre` but the bulk delete resolves with status 205 (a 2xx
status, so axios resolves, yet it is neither 200 nor 204). -/
def envDeleteFails : Env := fun req _ =>
  Attempt.http
    (match req with
     | Request.postAuth => { status := 200, statusText := "OK", data := RespData.session "sid-1" 300 }
     | Request.getLists =>
       { status := 200, statusText := "OK",
         data := RespData.lists [{ address := "https://old.example/u3.txt", type := "block" }] }
     | Request.batchDelete _ => { status := 205, statusText := "Reset Content", data := RespData.noData }
     | _ => { status := 200, statusText := "OK", data := RespData.noData })

/-- An environment where the DNS patch endpoint answers 403 (everything else
succeeds). -/
def envPatch403 : Env := fun req _ =>
  Attempt.http
    (match req with
     | Request.patchConfig _ => { status := 403, statusText := "Forbidden", data := RespData.noData }
     | _ => { status := 200, statusText := "OK", data := RespData.noData })

/-- An environment where the DNS patch endpoint answers 500 (everything else
succeeds). -/
def envPatch500 : Env := fun req _ =>
  Attempt.http
    (match req with
     | Request.patchConfig _ => { status := 500, statusText := "Internal Server Error", data := RespData.noData }
     | _ => { status := 200, statusText := "OK", data := RespData.noData })

/-- An environment whose authentication endpoint answers 401 on every
attempt (everything else succeeds). -/
def envAuth401 : Env := fun req _ =>
  Attempt.http
    (match req with
     | Request.postAuth => { status := 401, statusText := "Unauthorized", data := RespData.noData }
     | _ => { status := 200, statusText := "OK", data := RespData.noData })

/-- A configuration whose `blocklists` section is present but empty. -/
def cfgEmptyLists : PiholeConfig := { blocklists := some [] }

/-- The configuration of spec property P2: two desired blocklist URLs. -/
def cfgP2 : PiholeConfig :=
  { blocklists := some ["https://u1.example/a.txt", "https://u2.example/b.txt"] }

/-! ## Basic lemmas: monad, transport, single requests -/

theorem M.pure_bind {α β : Type} (a : α) (f : α → M β) : M.bind (M.pure a) f = f a := rfl

theorem request_snd (env : Env) (req : Request) (tr : List Request) :
    (request env req tr).2 = tr ++ [req] := by
  unfold request
  cases (axiosSend (env req)).1 <;> rfl

theorem request_ok (env : Env) (req : Request) (tr : List Request) (r : Response)
    (h : (axiosSend (env req)).1 = Except.ok r) :
    request env req tr = (Except.ok r, tr ++ [req]) := by
  unfold request
  rw [h]

theorem request_err (env : Env) (req : Request) (tr : List Request) (e : AxiosError)
    (h : (axiosSend (env req)).1 = Except.error e) :
    request env req tr = (Except.error (RunError.axios e), tr ++ [req]) := by
  unfold request
  rw [h]

theorem logoutFromPihole_eval (env : Env) (tr : List Request) :
    logoutFromPihole env tr = (Except.ok (), tr ++ [Request.deleteAuth]) := by
  unfold logoutFromPihole tryCatch M.bind M.pure request
  cases (axiosSend (env Request.deleteAuth)).1 <;> rfl

theorem fetchListsFromPihole_snd (env : Env) (tr : List Request) :
    (fetchListsFromPihole env tr).2 = tr ++ [Request.getLists] := by
  unfold fetchListsFromPihole M.bind M.pure request throwM
  cases (axiosSend (env Request.getLists)).1 with
  | ok r =>
    by_cases hs : r.status = 200
    · cases hd : r.data <;> simp [hs, hd]
    · simp [hs]
  | error e => simp

theorem authenticateWithPihole_snd (env : Env) (tr : List Request) :
    (authenticateWithPihole env tr).2 = tr ++ [Request.postAuth] := by
  unfold authenticateWithPihole M.bind M.pure request throwM
  cases (axiosSend (env Request.postAuth)).1 with
  | ok r =>
    by_cases hs : r.status = 200
    · cases hd : r.data <;> simp [hs, hd]
    · simp [hs]
  | error e => simp

theorem updateGravity_snd (env : Env) (tr : List Request) :
    (updateGravity env tr).2 = tr ++ [Request.postGravity] := by
  unfold updateGravity M.bind M.pure request throwM
  cases (axiosSend (env Request.postGravity)).1 with
  | ok r => by_cases hs : r.status = 200 <;> simp [hs]
  | error e => simp

theorem warmup_eval (env : Env) (tr : List Request) :
    tryCatch (M.bind (request env Request.getConfig) (fun _ => M.pure ()))
      (fun _ => M.pure ()) tr = (Except.ok (), tr ++ [Request.getConfig]) := by
  unfold tryCatch M.bind M.pure request
  cases (axiosSend (env Request.getConfig)).1 <;> rfl

theorem patchPiholeConfig_snd (env : Env) (p : DnsPatchPayload) (tr : List Request) :
    (patchPiholeConfig env p tr).2 = tr ++ [Request.getConfig, Request.patchConfig p] := by
  unfold patchPiholeConfig tryCatch M.bind M.pure request throwM
  cases (axiosSend (env Request.getConfig)).1 <;>
    cases (axiosSend (env (Request.patchConfig p))).1 <;>
    simp <;>
    rename_i e <;>
    cases e <;>
    simp <;>
    rename_i r <;>
    by_cases h4 : r.status = 403 <;>
    simp [h4]

/-! ## Evaluation lemmas: running each component under a known environment -/

theorem M.bind_eval_ok {α β : Type} (x : M α) (f : α → M β) (tr tr' : List Request) (a : α)
    (h : x tr = (Except.ok a, tr')) : M.bind x f tr = f a tr' := by
  unfold M.bind
  rw [h]

theorem M.bind_eval_err {α β : Type} (x : M α) (f : α → M β) (tr tr' : List Request) (e : RunError)
    (h : x tr = (Except.error e, tr')) : M.bind x f tr = (Except.error e, tr') := by
  unfold M.bind
  rw [h]

theorem tryCatch_eval_ok {α : Type} (x : M α) (hh : RunError → M α) (tr tr' : List Request) (a : α)
    (h : x tr = (Except.ok a, tr')) : tryCatch x hh tr = (Except.ok a, tr') := by
  unfold tryCatch
  rw [h]

theorem tryCatch_eval_err {α : Type} (x : M α) (hh : RunError → M α) (tr tr' : List Request) (e : RunError)
    (h : x tr = (Except.error e, tr')) : tryCatch x hh tr = hh e tr' := by
  unfold tryCatch
  rw [h]

theorem requestUnit_ok (env : Env) (req : Request) (tr : List Request) (r : Response)
    (h : (axiosSend (env req)).1 = Except.ok r) :
    M.bind (request env req) (fun _ => M.pure ()) tr = (Except.ok (), tr ++ [req]) := by
  rw [M.bind_eval_ok _ _ _ _ _ (request_ok env req tr _ h)]
  rfl

theorem requestUnit_err (env : Env) (req : Request) (tr : List Request) (e : AxiosError)
    (h : (axiosSend (env req)).1 = Except.error e) :
    M.bind (request env req) (fun _ => M.pure ()) tr = (Except.error (RunError.axios e), tr ++ [req]) := by
  rw [M.bind_eval_err _ _ _ _ _ (request_err env req tr _ h)]

theorem getPiholeConfig_ok (parsed : Option PiholeConfig) (tr : List Request) :
    getPiholeConfig (Except.ok parsed) tr = (Except.ok (parsed.getD {}), tr) := rfl

theorem getPiholeConfig_err (e : ErrMsg) (tr : List Request) :
    getPiholeConfig (Except.error e) tr = (Except.error (RunError.thrown e), tr) := rfl

theorem authenticateWithPihole_ok (env : Env) (tr : List Request) (st sid : String) (v : Int)
    (h : (axiosSend (env Request.postAuth)).1
        = Except.ok { status := 200, statusText := st, data := RespData.session sid v }) :
    authenticateWithPihole env tr = (Except.ok (), tr ++ [Request.postAuth]) := by
  unfold authenticateWithPihole
  rw [M.bind_eval_ok _ _ _ _ _ (request_ok env Request.postAuth tr _ h)]
  simp [M.pure]

theorem authenticateWithPihole_fail2xx (env : Env) (tr : List Request) (r : Response)
    (h : (axiosSend (env Request.postAuth)).1 = Except.ok r) (hs : r.status ≠ 200) :
    authenticateWithPihole env tr
      = (Except.error (RunError.thrown (ErrMsg.authFailed r.status r.statusText)),
         tr ++ [Request.postAuth]) := by
  unfold authenticateWithPihole
  rw [M.bind_eval_ok _ _ _ _ _ (request_ok env Request.postAuth tr _ h)]
  rw [if_pos hs]
  rfl

theorem authenticateWithPihole_reject (env : Env) (tr : List Request) (e : AxiosError)
    (h : (axiosSend (env Request.postAuth)).1 = Except.error e) :
    authenticateWithPihole env tr = (Except.error (RunError.axios e), tr ++ [Request.postAuth]) := by
  unfold authenticateWithPihole
  rw [M.bind_eval_err _ _ _ _ _ (request_err env Request.postAuth tr _ h)]

theorem fetchListsFromPihole_ok (env : Env) (tr : List Request) (st : String)
    (remote : List ListEntry)
    (h : (axiosSend (env Request.getLists)).1
        = Except.ok { status := 200, statusText := st, data := RespData.lists remote }) :
    fetchListsFromPihole env tr = (Except.ok remote, tr ++ [Request.getLists]) := by
  unfold fetchListsFromPihole
  rw [M.bind_eval_ok _ _ _ _ _ (request_ok env Request.getLists tr _ h)]
  simp [M.pure]

theorem fetchListsFromPihole_fail2xx (env : Env) (tr : List Request) (r : Response)
    (h : (axiosSend (env Request.getLists)).1 = Except.ok r) (hs : r.status ≠ 200) :
    fetchListsFromPihole env tr
      = (Except.error (RunError.thrown (ErrMsg.fetchListsFailed r.status r.statusText)),
         tr ++ [Request.getLists]) := by
  unfold fetchListsFromPihole
  rw [M.bind_eval_ok _ _ _ _ _ (request_ok env Request.getLists tr _ h)]
  rw [if_pos hs]
  rfl

theorem deleteExistingLists_nil (env : Env) (tr : List Request) :
    deleteExistingLists env [] tr = (Except.ok (), tr) := rfl

theorem deleteExistingLists_ok (env : Env) (tr : List Request) (ls : List ListEntry) (r : Response)
    (hne : ls.length ≠ 0)
    (h : (axiosSend (env (Request.batchDelete
        (ls.map (fun list => { item := list.address, type := list.type }))))).1 = Except.ok r)
    (hst : r.status = 200 ∨ r.status = 204) :
    deleteExistingLists env ls tr
      = (Except.ok (),
         tr ++ [Request.batchDelete (ls.map (fun list => { item := list.address, type := list.type }))]) := by
  unfold deleteExistingLists
  rw [if_neg hne]
  rw [M.bind_eval_ok _ _ _ _ _ (request_ok env _ tr _ h)]
  rw [if_pos hst]
  rfl

theorem deleteExistingLists_fail (env : Env) (tr : List Request) (ls : List ListEntry) (r : Response)
    (hne : ls.length ≠ 0)
    (h : (axiosSend (env (Request.batchDelete
        (ls.map (fun list => { item := list.address, type := list.type }))))).1 = Except.ok r)
    (hst : ¬(r.status = 200 ∨ r.status = 204)) :
    deleteExistingLists env ls tr
      = (Except.error (RunError.thrown (ErrMsg.deleteListsFailed r.status r.statusText)),
         tr ++ [Request.batchDelete (ls.map (fun list => { item := list.address, type := list.type }))]) := by
  unfold deleteExistingLists
  rw [if_neg hne]
  rw [M.bind_eval_ok _ _ _ _ _ (request_ok env _ tr _ h)]
  rw [if_neg hst]
  rfl

theorem deleteExistingLists_reject (env : Env) (tr : List Request) (ls : List ListEntry)
    (e : AxiosError) (hne : ls.length ≠ 0)
    (h : (axiosSend (env (Request.batchDelete
        (ls.map (fun list => { item := list.address, type := list.type }))))).1 = Except.error e) :
    deleteExistingLists env ls tr
      = (Except.error (RunError.axios e),
         tr ++ [Request.batchDelete (ls.map (fun list => { item := list.address, type := list.type }))]) := by
  unfold deleteExistingLists
  rw [if_neg hne]
  rw [M.bind_eval_err _ _ _ _ _ (request_err env _ tr _ h)]

theorem addBlocklists_resolved (env : Env) (urls : List String) (rp : String → Response)
    (h : ∀ u, (axiosSend (env (Request.postList u "block"))).1 = Except.ok (rp u)) :
    ∀ tr, addBlocklists env urls tr
      = (Except.ok (), tr ++ urls.map (fun u => Request.postList u "block")) := by
  induction urls with
  | nil => intro tr; simp [addBlocklists, M.pure]
  | cons u rest ih =>
    intro tr
    show M.bind (request env (Request.postList u "block")) (fun _ => addBlocklists env rest) tr = _
    rw [M.bind_eval_ok _ _ _ _ _ (request_ok env _ tr _ (h u))]
    rw [ih (tr ++ [Request.postList u "block"])]
    simp

theorem updateGravity_ok (env : Env) (tr : List Request) (r : Response)
    (h : (axiosSend (env Request.postGravity)).1 = Except.ok r) (hs : r.status = 200) :
    updateGravity env tr = (Except.ok (), tr ++ [Request.postGravity]) := by
  unfold updateGravity
  rw [M.bind_eval_ok _ _ _ _ _ (request_ok env Request.postGravity tr _ h)]
  rw [if_neg (by simp [hs])]
  rfl

theorem patchPiholeConfig_ok (env : Env) (p : DnsPatchPayload) (tr : List Request) (r : Response)
    (h : (axiosSend (env (Request.patchConfig p))).1 = Except.ok r) :
    patchPiholeConfig env p tr = (Except.ok (), tr ++ [Request.getConfig, Request.patchConfig p]) := by
  unfold patchPiholeConfig
  rw [M.bind_eval_ok _ _ _ _ _ (warmup_eval env tr)]
  rw [tryCatch_eval_ok _ _ _ _ _ (requestUnit_ok env (Request.patchConfig p) (tr ++ [Request.getConfig]) _ h)]
  simp

theorem patchPiholeConfig_403 (env : Env) (p : DnsPatchPayload) (tr : List Request) (r : Response)
    (h : (axiosSend (env (Request.patchConfig p))).1 = Except.error (AxiosError.badStatus r))
    (h4 : r.status = 403) :
    patchPiholeConfig env p tr
      = (Except.error (RunError.thrown ErrMsg.configPatchPermission),
         tr ++ [Request.getConfig, Request.patchConfig p]) := by
  unfold patchPiholeConfig
  rw [M.bind_eval_ok _ _ _ _ _ (warmup_eval env tr)]
  rw [tryCatch_eval_err _ _ _ _ _ (requestUnit_err env (Request.patchConfig p) (tr ++ [Request.getConfig]) _ h)]
  simp [h4, throwM]

theorem patchPiholeConfig_badOther (env : Env) (p : DnsPatchPayload) (tr : List Request) (r : Response)
    (h : (axiosSend (env (Request.patchConfig p))).1 = Except.error (AxiosError.badStatus r))
    (h4 : r.status ≠ 403) :
    patchPiholeConfig env p tr
      = (Except.error (RunError.referenceError "updateResponse"),
         tr ++ [Request.getConfig, Request.patchConfig p]) := by
  unfold patchPiholeConfig
  rw [M.bind_eval_ok _ _ _ _ _ (warmup_eval env tr)]
  rw [tryCatch_eval_err _ _ _ _ _ (requestUnit_err env (Request.patchConfig p) (tr ++ [Request.getConfig]) _ h)]
  simp [h4, throwM]

theorem patchPiholeConfig_network (env : Env) (p : DnsPatchPayload) (tr : List Request)
    (h : (axiosSend (env (Request.patchConfig p))).1 = Except.error AxiosError.network) :
    patchPiholeConfig env p tr
      = (Except.error (RunError.referenceError "updateResponse"),
         tr ++ [Request.getConfig, Request.patchConfig p]) := by
  unfold patchPiholeConfig
  rw [M.bind_eval_ok _ _ _ _ _ (warmup_eval env tr)]
  rw [tryCatch_eval_err _ _ _ _ _ (requestUnit_err env (Request.patchConfig p) (tr ++ [Request.getConfig]) _ h)]
  simp [throwM]

/-! ## Composition lemmas for the reconcilers and the orchestrator -/

theorem applyLists_skip (env : Env) (cfg : PiholeConfig) (tr : List Request)
    (hbl : cfg.blocklists = none) : applyLists env cfg tr = (Except.ok (), tr) := by
  unfold applyLists
  rw [hbl]
  rfl

theorem applyLists_some (env : Env) (cfg : PiholeConfig) (urls : List String)
    (hbl : cfg.blocklists = some urls) :
    applyLists env cfg
      = M.bind (fetchListsFromPihole env) (fun existingLists =>
          M.bind (deleteExistingLists env existingLists) (fun _ =>
            M.bind (addBlocklists env urls) (fun _ =>
              updateGravity env))) := by
  unfold applyLists
  rw [hbl]

theorem dnsHosts_none_iff (cfg : PiholeConfig) :
    dnsHosts cfg = none ↔ cfg.localDnsRecords = none := by
  unfold dnsHosts
  cases cfg.localDnsRecords <;> simp

theorem dnsCnames_none_iff (cfg : PiholeConfig) :
    dnsCnames cfg = none ↔ cfg.localDnsCnames = none := by
  unfold dnsCnames
  cases cfg.localDnsCnames <;> simp

theorem applyLocalDnsSettings_def (env : Env) (cfg : PiholeConfig) :
    applyLocalDnsSettings env cfg =
      if (dnsHosts cfg).isNone && (dnsCnames cfg).isNone then M.pure ()
      else patchPiholeConfig env { hosts := dnsHosts cfg, cnames := dnsCnames cfg } := rfl

theorem applyLocalDnsSettings_eval (env : Env) (cfg : PiholeConfig) (tr : List Request) :
    applyLocalDnsSettings env cfg tr =
      if (dnsHosts cfg).isNone && (dnsCnames cfg).isNone then (Except.ok (), tr)
      else patchPiholeConfig env { hosts := dnsHosts cfg, cnames := dnsCnames cfg } tr := by
  unfold applyLocalDnsSettings
  by_cases h : (dnsHosts cfg).isNone && (dnsCnames cfg).isNone
  · rw [if_pos h, if_pos h]
    rfl
  · rw [if_neg h, if_neg h]

theorem applyLocalDnsSettings_skip (env : Env) (cfg : PiholeConfig) (tr : List Request)
    (h1 : cfg.localDnsRecords = none) (h2 : cfg.localDnsCnames = none) :
    applyLocalDnsSettings env cfg tr = (Except.ok (), tr) := by
  rw [applyLocalDnsSettings_eval]
  rw [if_pos]
  simp [(dnsHosts_none_iff cfg).mpr h1, (dnsCnames_none_iff cfg).mpr h2]

theorem runBody_eval_cfg (env : Env) (cfg : PiholeConfig) :
    runBody env (Except.ok (some cfg))
      = M.bind (authenticateWithPihole env) (fun _ =>
          M.bind (applyLists env cfg) (fun _ =>
            applyLocalDnsSettings env cfg)) := by
  funext tr
  unfold runBody
  rw [M.bind_eval_ok _ _ _ _ _ (getPiholeConfig_ok (some cfg) tr)]
  rfl

theorem runBody_eval_none (env : Env) :
    runBody env (Except.ok Option.none)
      = M.bind (authenticateWithPihole env) (fun _ =>
          M.bind (applyLists env {}) (fun _ =>
            applyLocalDnsSettings env {})) := by
  funext tr
  unfold runBody
  rw [M.bind_eval_ok _ _ _ _ _ (getPiholeConfig_ok Option.none tr)]
  rfl

theorem run_eval_of_body_ok (env : Env) (src : Except ErrMsg (Option PiholeConfig))
    (tr tr1 : List Request) (h : runBody env src tr = (Except.ok (), tr1)) :
    run env src tr = (Except.ok Option.none, tr1 ++ [Request.deleteAuth]) := by
  unfold run
  rw [M.bind_eval_ok _ (fun res => M.bind (logoutFromPihole env) (fun _ => M.pure res)) _ _ _
    (tryCatch_eval_ok _ _ _ _ _ (M.bind_eval_ok _ (fun _ => M.pure Option.none) _ _ _ h))]
  rw [M.bind_eval_ok _ _ _ _ _ (logoutFromPihole_eval env tr1)]
  rfl

theorem run_eval_of_body_err (env : Env) (src : Except ErrMsg (Option PiholeConfig))
    (tr tr1 : List Request) (e : RunError) (h : runBody env src tr = (Except.error e, tr1)) :
    run env src tr = (Except.ok (some e), tr1 ++ [Request.deleteAuth]) := by
  unfold run
  rw [M.bind_eval_ok _ (fun res => M.bind (logoutFromPihole env) (fun _ => M.pure res)) _ _ _
    (tryCatch_eval_err _ _ _ _ _ (M.bind_eval_err _ (fun _ => M.pure Option.none) _ _ _ h))]
  rw [M.bind_eval_ok _ _ _ _ _ (logoutFromPihole_eval env tr1)]
  rfl

/-! ## Trace containment: which requests a component can ever append -/

/-- Predicate: `x` only ever appends requests satisfying `q` to the trace, whether it
succeeds or throws. -/
def TraceOnly {α : Type} (q : Request → Prop) (x : M α) : Prop :=
  ∀ tr, ∃ ds, (x tr).2 = tr ++ ds ∧ ∀ r ∈ ds, q r

theorem traceOnly_of_snd_eq {α : Type} (q : Request → Prop) (x : M α)
    (h : ∀ tr, (x tr).2 = tr) : TraceOnly q x := by
  intro tr
  exact ⟨[], by simp [h], by simp⟩

theorem traceOnly_pure {α : Type} (q : Request → Prop) (a : α) : TraceOnly q (M.pure a) :=
  traceOnly_of_snd_eq q _ (fun _ => rfl)

theorem traceOnly_request (q : Request → Prop) (env : Env) (req : Request) (hq : q req) :
    TraceOnly q (request env req) := by
  intro tr
  refine ⟨[req], request_snd env req tr, ?_⟩
  simpa using hq

theorem traceOnly_bind {α β : Type} (q : Request → Prop) (x : M α) (f : α → M β)
    (hx : TraceOnly q x) (hf : ∀ a, TraceOnly q (f a)) : TraceOnly q (M.bind x f) := by
  intro tr
  obtain ⟨d1, h1, hq1⟩ := hx tr
  rcases hx2 : x tr with ⟨res, tr1⟩
  have htr1 : tr1 = tr ++ d1 := by rw [hx2] at h1; exact h1
  cases res with
  | ok a =>
    obtain ⟨d2, h2, hq2⟩ := hf a tr1
    refine ⟨d1 ++ d2, ?_, ?_⟩
    · unfold M.bind
      rw [hx2]
      show (f a tr1).2 = tr ++ (d1 ++ d2)
      rw [h2, htr1, List.append_assoc]
    · intro r hr
      rcases List.mem_append.mp hr with hm | hm
      · exact hq1 r hm
      · exact hq2 r hm
  | error e =>
    refine ⟨d1, ?_, hq1⟩
    unfold M.bind
    rw [hx2]
    exact htr1

theorem traceOnly_tryCatch {α : Type} (q : Request → Prop) (x : M α) (hh : RunError → M α)
    (hx : TraceOnly q x) (hf : ∀ e, TraceOnly q (hh e)) : TraceOnly q (tryCatch x hh) := by
  intro tr
  obtain ⟨d1, h1, hq1⟩ := hx tr
  rcases hx2 : x tr with ⟨res, tr1⟩
  have htr1 : tr1 = tr ++ d1 := by rw [hx2] at h1; exact h1
  cases res with
  | ok a =>
    refine ⟨d1, ?_, hq1⟩
    unfold tryCatch
    rw [hx2]
    exact htr1
  | error e =>
    obtain ⟨d2, h2, hq2⟩ := hf e tr1
    refine ⟨d1 ++ d2, ?_, ?_⟩
    · unfold tryCatch
      rw [hx2]
      show (hh e tr1).2 = tr ++ (d1 ++ d2)
      rw [h2, htr1, List.append_assoc]
    · intro r hr
      rcases List.mem_append.mp hr with hm | hm
      · exact hq1 r hm
      · exact hq2 r hm

theorem traceOnly_authenticate (q : Request → Prop) (env : Env) (hq : q Request.postAuth) :
    TraceOnly q (authenticateWithPihole env) := by
  unfold authenticateWithPihole
  refine traceOnly_bind q _ _ (traceOnly_request q env _ hq) ?_
  intro r
  apply traceOnly_of_snd_eq
  intro tr
  split
  · rfl
  · cases r.data <;> rfl

theorem traceOnly_fetch (q : Request → Prop) (env : Env) (hq : q Request.getLists) :
    TraceOnly q (fetchListsFromPihole env) := by
  unfold fetchListsFromPihole
  refine traceOnly_bind q _ _ (traceOnly_request q env _ hq) ?_
  intro r
  apply traceOnly_of_snd_eq
  intro tr
  split
  · rfl
  · cases r.data <;> rfl

theorem traceOnly_delete (q : Request → Prop) (env : Env)
    (hq : ∀ items, q (Request.batchDelete items)) (ls : List ListEntry) :
    TraceOnly q (deleteExistingLists env ls) := by
  unfold deleteExistingLists
  split
  · exact traceOnly_pure q ()
  · refine traceOnly_bind q _ _ (traceOnly_request q env _ (hq _)) ?_
    intro r
    apply traceOnly_of_snd_eq
    intro tr
    split <;> rfl

theorem traceOnly_add (q : Request → Prop) (env : Env)
    (hq : ∀ u, q (Request.postList u "block")) :
    ∀ urls, TraceOnly q (addBlocklists env urls)
  | [] => traceOnly_pure q ()
  | url :: rest =>
    traceOnly_bind q _ _ (traceOnly_request q env _ (hq url))
      (fun _ => traceOnly_add q env hq rest)

theorem traceOnly_gravity (q : Request → Prop) (env : Env) (hq : q Request.postGravity) :
    TraceOnly q (updateGravity env) := by
  unfold updateGravity
  refine traceOnly_bind q _ _ (traceOnly_request q env _ hq) ?_
  intro r
  apply traceOnly_of_snd_eq
  intro tr
  split <;> rfl

theorem traceOnly_patch (q : Request → Prop) (env : Env) (p : DnsPatchPayload)
    (hqc : q Request.getConfig) (hqp : q (Request.patchConfig p)) :
    TraceOnly q (patchPiholeConfig env p) := by
  unfold patchPiholeConfig
  refine traceOnly_bind q _ _ ?_ ?_
  · refine traceOnly_tryCatch q _ _ ?_ (fun _ => traceOnly_pure q ())
    exact traceOnly_bind q _ _ (traceOnly_request q env _ hqc) (fun _ => traceOnly_pure q ())
  · intro a
    refine traceOnly_tryCatch q _ _ ?_ ?_
    · exact traceOnly_bind q _ _ (traceOnly_request q env _ hqp) (fun _ => traceOnly_pure q ())
    · intro e
      apply traceOnly_of_snd_eq
      intro tr
      split <;> first | rfl | (split <;> rfl)

theorem traceOnly_dns (q : Request → Prop) (env : Env) (cfg : PiholeConfig)
    (hqc : q Request.getConfig) (hqp : ∀ p, q (Request.patchConfig p)) :
    TraceOnly q (applyLocalDnsSettings env cfg) := by
  rw [applyLocalDnsSettings_def]
  split
  · exact traceOnly_pure q ()
  · exact traceOnly_patch q env _ hqc (hqp _)

theorem traceOnly_applyLists (q : Request → Prop) (env : Env) (cfg : PiholeConfig)
    (hql : q Request.getLists) (hqd : ∀ items, q (Request.batchDelete items))
    (hqp : ∀ u, q (Request.postList u "block")) (hqg : q Request.postGravity) :
    TraceOnly q (applyLists env cfg) := by
  unfold applyLists
  split
  · exact traceOnly_pure q ()
  · refine traceOnly_bind q _ _ (traceOnly_fetch q env hql) (fun ls => ?_)
    refine traceOnly_bind q _ _ (traceOnly_delete q env hqd ls) (fun _ => ?_)
    exact traceOnly_bind q _ _ (traceOnly_add q env hqp _) (fun _ => traceOnly_gravity q env hqg)

theorem traceOnly_getPiholeConfig (q : Request → Prop)
    (src : Except ErrMsg (Option PiholeConfig)) : TraceOnly q (getPiholeConfig src) := by
  apply traceOnly_of_snd_eq
  intro tr
  unfold getPiholeConfig
  split <;> rfl

theorem traceOnly_runBody (q : Request → Prop) (env : Env)
    (src : Except ErrMsg (Option PiholeConfig))
    (hqa : q Request.postAuth) (hqc : q Request.getConfig)
    (hqp : ∀ p, q (Request.patchConfig p))
    (happly : ∀ cfg, TraceOnly q (applyLists env cfg)) :
    TraceOnly q (runBody env src) := by
  unfold runBody
  refine traceOnly_bind q _ _ (traceOnly_getPiholeConfig q src) (fun cfg => ?_)
  refine traceOnly_bind q _ _ (traceOnly_authenticate q env hqa) (fun _ => ?_)
  refine traceOnly_bind q _ _ (happly cfg) (fun _ => ?_)
  exact traceOnly_dns q env cfg hqc hqp

/-! ## Remote list-state lemmas -/

theorem listState_append (remote : List ListEntry) (t1 t2 : List Request) :
    listState remote (t1 ++ t2) = listState (listState remote t1) t2 := by
  induction t1 generalizing remote with
  | nil => rfl
  | cons r rest ih => simp [listState, ih]

theorem applyRequestOnLists_nonListCall (remote : List ListEntry) (r : Request)
    (h : isListCall r = false) : applyRequestOnLists remote r = remote := by
  cases r <;> simp [isListCall] at h ⊢ <;> rfl

theorem listState_nonListCall (tr : List Request) (h : ∀ r ∈ tr, isListCall r = false) :
    ∀ remote, listState remote tr = remote := by
  induction tr with
  | nil => intro remote; rfl
  | cons a rest ih =>
    intro remote
    have ha : isListCall a = false := h a (by simp)
    rw [listState, applyRequestOnLists_nonListCall remote a ha]
    exact ih (fun r hr => h r (by simp [hr])) remote

theorem batchDelete_all (remote : List ListEntry) :
    applyRequestOnLists remote
      (Request.batchDelete (remote.map (fun l => { item := l.address, type := l.type })))
      = [] := by
  unfold applyRequestOnLists
  rw [List.filter_eq_nil_iff]
  intro l hl
  simp
  exact ⟨l, hl, rfl, rfl⟩

theorem listState_posts (urls : List String) : ∀ acc : List ListEntry,
    listState acc (urls.map (fun u => Request.postList u "block"))
      = acc ++ urls.map (fun u => { address := u, type := "block" }) := by
  induction urls with
  | nil => intro acc; simp [listState]
  | cons u rest ih =>
    intro acc
    simp [listState, applyRequestOnLists, ih]

/-! ## Environment congruence: which endpoints each component consults -/

theorem request_congr (env env' : Env) (req : Request) (h : env req = env' req) :
    request env req = request env' req := by
  unfold request
  rw [h]

theorem authenticateWithPihole_congr (env env' : Env)
    (h : env Request.postAuth = env' Request.postAuth) :
    authenticateWithPihole env = authenticateWithPihole env' := by
  unfold authenticateWithPihole
  rw [request_congr env env' _ h]

theorem fetchListsFromPihole_congr (env env' : Env)
    (h : env Request.getLists = env' Request.getLists) :
    fetchListsFromPihole env = fetchListsFromPihole env' := by
  unfold fetchListsFromPihole
  rw [request_congr env env' _ h]

theorem deleteExistingLists_congr (env env' : Env)
    (h : ∀ items, env (Request.batchDelete items) = env' (Request.batchDelete items)) :
    deleteExistingLists env = deleteExistingLists env' := by
  funext ls
  unfold deleteExistingLists
  rw [request_congr env env' _ (h _)]

theorem addBlocklists_congr (env env' : Env)
    (h : ∀ u, env (Request.postList u "block") = env' (Request.postList u "block")) :
    ∀ urls, addBlocklists env urls = addBlocklists env' urls
  | [] => rfl
  | url :: rest => by
    show M.bind (request env (Request.postList url "block")) (fun _ => addBlocklists env rest)
        = M.bind (request env' (Request.postList url "block")) (fun _ => addBlocklists env' rest)
    rw [request_congr env env' _ (h url), addBlocklists_congr env env' h rest]

theorem addBlocklists_congr_fun (env env' : Env)
    (h : ∀ u, env (Request.postList u "block") = env' (Request.postList u "block")) :
    addBlocklists env = addBlocklists env' := by
  funext urls
  exact addBlocklists_congr env env' h urls

theorem updateGravity_congr (env env' : Env)
    (h : env Request.postGravity = env' Request.postGravity) :
    updateGravity env = updateGravity env' := by
  unfold updateGravity
  rw [request_congr env env' _ h]

theorem applyLists_congr (env env' : Env)
    (hl : env Request.getLists = env' Request.getLists)
    (hd : ∀ items, env (Request.batchDelete items) = env' (Request.batchDelete items))
    (hp : ∀ u, env (Request.postList u "block") = env' (Request.postList u "block"))
    (hg : env Request.postGravity = env' Request.postGravity) :
    applyLists env = applyLists env' := by
  funext cfg
  unfold applyLists
  rw [fetchListsFromPihole_congr env env' hl, deleteExistingLists_congr env env' hd,
    addBlocklists_congr_fun env env' hp, updateGravity_congr env env' hg]

theorem patchPiholeConfig_congr (env env' : Env) (p : DnsPatchPayload)
    (h : env (Request.patchConfig p) = env' (Request.patchConfig p)) :
    patchPiholeConfig env p = patchPiholeConfig env' p := by
  funext tr
  unfold patchPiholeConfig
  rw [M.bind_eval_ok _ _ _ _ _ (warmup_eval env tr),
    M.bind_eval_ok _ _ _ _ _ (warmup_eval env' tr)]
  rw [request_congr env env' _ h]

theorem applyLocalDnsSettings_congr (env env' : Env)
    (hpc : ∀ p, env (Request.patchConfig p) = env' (Request.patchConfig p)) :
    applyLocalDnsSettings env = applyLocalDnsSettings env' := by
  funext cfg
  rw [applyLocalDnsSettings_def, applyLocalDnsSettings_def]
  rw [patchPiholeConfig_congr env env' _ (hpc _)]

theorem logoutFromPihole_congr (env env' : Env) :
    logoutFromPihole env = logoutFromPihole env' := by
  funext tr
  rw [logoutFromPihole_eval env tr, logoutFromPihole_eval env' tr]

theorem runBody_congr (env env' : Env) (src : Except ErrMsg (Option PiholeConfig))
    (ha : env Request.postAuth = env' Request.postAuth)
    (hl : env Request.getLists = env' Request.getLists)
    (hd : ∀ items, env (Request.batchDelete items) = env' (Request.batchDelete items))
    (hp : ∀ u, env (Request.postList u "block") = env' (Request.postList u "block"))
    (hg : env Request.postGravity = env' Request.postGravity)
    (hpc : ∀ p, env (Request.patchConfig p) = env' (Request.patchConfig p)) :
    runBody env src = runBody env' src := by
  unfold runBody
  rw [authenticateWithPihole_congr env env' ha,
    applyLists_congr env env' hl hd hp hg,
    applyLocalDnsSettings_congr env env' hpc]

theorem run_congr (env env' : Env) (src : Except ErrMsg (Option PiholeConfig))
    (ha : env Request.postAuth = env' Request.postAuth)
    (hl : env Request.getLists = env' Request.getLists)
    (hd : ∀ items, env (Request.batchDelete items) = env' (Request.batchDelete items))
    (hp : ∀ u, env (Request.postList u "block") = env' (Request.postList u "block"))
    (hg : env Request.postGravity = env' Request.postGravity)
    (hpc : ∀ p, env (Request.patchConfig p) = env' (Request.patchConfig p)) :
    run env src = run env' src := by
  unfold run
  rw [runBody_congr env env' src ha hl hd hp hg hpc,
    logoutFromPihole_congr env env']

/-! ## Structure of a whole run -/

theorem tryCatchBody_fst_ok (env : Env) (src : Except ErrMsg (Option PiholeConfig))
    (tr : List Request) :
    ∃ res tr1, tryCatch (M.bind (runBody env src) (fun _ => M.pure Option.none))
      (fun error => M.pure (some error)) tr = (Except.ok res, tr1) := by
  unfold tryCatch
  rcases h : M.bind (runBody env src) (fun _ => M.pure Option.none) tr with ⟨res0, tr1⟩
  cases res0 with
  | ok a => exact ⟨a, tr1, rfl⟩
  | error e => exact ⟨some e, tr1, rfl⟩

theorem run_eval_struct (env : Env) (src : Except ErrMsg (Option PiholeConfig))
    (tr : List Request) :
    ∃ res tr1, run env src tr = (Except.ok res, tr1 ++ [Request.deleteAuth]) ∧
      tryCatch (M.bind (runBody env src) (fun _ => M.pure Option.none))
        (fun error => M.pure (some error)) tr = (Except.ok res, tr1) := by
  obtain ⟨res, tr1, h⟩ := tryCatchBody_fst_ok env src tr
  refine ⟨res, tr1, ?_, h⟩
  unfold run
  rw [M.bind_eval_ok _ (fun res => M.bind (logoutFromPihole env) (fun _ => M.pure res)) _ _ _ h]
  rw [M.bind_eval_ok _ _ _ _ _ (logoutFromPihole_eval env tr1)]
  rfl

theorem run_trace_only (q : Request → Prop) (env : Env)
    (src : Except ErrMsg (Option PiholeConfig)) (hq : q Request.deleteAuth)
    (hbody : TraceOnly q (runBody env src)) : TraceOnly q (run env src) := by
  unfold run
  refine traceOnly_bind q _ _ ?_ (fun res => ?_)
  · refine traceOnly_tryCatch q _ _ ?_ (fun e => traceOnly_pure q _)
    exact traceOnly_bind q _ _ hbody (fun _ => traceOnly_pure q _)
  · refine traceOnly_bind q _ _ ?_ (fun _ => traceOnly_pure q _)
    intro tr
    exact ⟨[Request.deleteAuth], by rw [logoutFromPihole_eval env tr], by simpa using hq⟩

/-! ## Transport behaviour on persistently failing endpoints -/

theorem axiosSend_const_fail (r : Response) (hbad : validateStatus r.status = false) :
    axiosSend (fun _ => Attempt.http r) = (Except.error (AxiosError.badStatus r), 4) := by
  simp [axiosSend, axiosSendAux, retries, attemptResult, retryCondition, hbad]

/-! ## Serialization of DNS sections, stated through `Option.map` -/

theorem dnsHosts_eq_map (cfg : PiholeConfig) :
    dnsHosts cfg = cfg.localDnsRecords.map
      (fun records => records.map (fun record => record.ip.trim ++ " " ++ record.domain.trim)) := by
  unfold dnsHosts
  cases cfg.localDnsRecords <;> rfl

theorem dnsCnames_eq_map (cfg : PiholeConfig) :
    dnsCnames cfg = cfg.localDnsCnames.map
      (fun records => records.map (fun record => record.domain.trim ++ "," ++ record.target.trim)) := by
  unfold dnsCnames
  cases cfg.localDnsCnames <;> rfl

theorem listState_single (remote : List ListEntry) (req : Request) :
    listState remote [req] = applyRequestOnLists remote req := rfl

theorem applyRequestOnLists_postAuth (remote : List ListEntry) :
    applyRequestOnLists remote Request.postAuth = remote := rfl

theorem applyRequestOnLists_getLists (remote : List ListEntry) :
    applyRequestOnLists remote Request.getLists = remote := rfl

theorem applyRequestOnLists_gravity (remote : List ListEntry) :
    applyRequestOnLists remote Request.postGravity = remote := rfl

/-! ## Claim theorems -/

/-- C4: for every DesiredConfig, the DNS reconciler issues its patch call if
and only if at least one of `localDnsRecords` or `localDnsCnames` is
present; the patch payload contains exactly the present sections (an absent
section is absent from the payload), with each host record serialized as
`"ip domain"` and each CNAME record as `"domain,target"`, both values
trimmed of surrounding whitespace. -/
theorem dns_patch_iff_sections (env : Env) (cfg : PiholeConfig) (tr : List Request) :
    (applyLocalDnsSettings env cfg tr).2 =
      tr ++ (if cfg.localDnsRecords = none ∧ cfg.localDnsCnames = none then ([] : List Request)
        else [Request.getConfig,
          Request.patchConfig
            { hosts := cfg.localDnsRecords.map
                (fun records => records.map (fun record => record.ip.trim ++ " " ++ record.domain.trim)),
              cnames := cfg.localDnsCnames.map
                (fun records => records.map (fun record => record.domain.trim ++ "," ++ record.target.trim)) }]) := by
  rw [applyLocalDnsSettings_eval]
  by_cases h1 : cfg.localDnsRecords = none <;> by_cases h2 : cfg.localDnsCnames = none
  · rw [if_pos (by simp [(dnsHosts_none_iff cfg).mpr h1, (dnsCnames_none_iff cfg).mpr h2])]
    rw [if_pos ⟨h1, h2⟩]
    simp
  all_goals
    rw [if_neg (by
      simp only [Bool.and_eq_true, Option.isNone_iff_eq_none, dnsHosts_none_iff, dnsCnames_none_iff]
      intro hc
      exact absurd hc (by simp [h1, h2]))]
    rw [if_neg (by simp [h1, h2])]
    rw [patchPiholeConfig_snd]
    rw [dnsHosts_eq_map, dnsCnames_eq_map]

/-- C5 (evaluation at the failing inputs): when the DNS patch endpoint
answers 403, the run surfaces the dedicated permission error, whose rendered
message contains the remediation hint; but when the endpoint answers any
other non-2xx status such as 500, the code reaches the catch-block line that
reads `updateResponse` — a `const` scoped to the try block — so it raises a
ReferenceError carrying no HTTP status or reason text, not the documented
API error. -/
theorem patch403_permission_patch500_referenceError :
    (patchPiholeConfig envPatch403 payload0 []).1
        = Except.error (RunError.thrown ErrMsg.configPatchPermission)
    ∧ (∃ a b, renderErrMsg ErrMsg.configPatchPermission
        = a ++ "Please set webserver.api.app_sudo to true" ++ b)
    ∧ (patchPiholeConfig envPatch500 payload0 []).1
        = Except.error (RunError.referenceError "updateResponse")
    ∧ (∀ m : ErrMsg, RunError.referenceError "updateResponse" ≠ RunError.thrown m) :=
  ⟨rfl,
   ⟨"❌ Could not update Pi-hole config: ",
    " in Pi-hole settings (System > Settings > All Settings).", rfl⟩,
   rfl,
   fun _m h => RunError.noConfusion h⟩

/-- C8 counterexample: a 401 authentication response is NOT surfaced after a
single attempt — the transport's `retryCondition: () => true` retries it
like any other failure, so the auth endpoint is hit 4 times (1 attempt + 3
retries) before the error surfaces. -/
theorem auth401_retried_by_transport :
    (axiosSend (envAuth401 Request.postAuth)).2 = 4 ∧
    retryCondition (AxiosError.badStatus
      { status := 401, statusText := "Unauthorized", data := RespData.noData }) = true ∧
    (axiosSend (envAuth401 Request.postAuth)).2 ≠ 1 :=
  ⟨rfl, rfl, by decide⟩

/-- C8 amended: a non-2xx authentication response is a fatal error that
aborts the entire run (carrying the full HTTP response, hence status and
reason) — only authentication and logout calls appear in the trace; but the
transport retries every failed request, including a non-transient 401
response, up to 3 retries (4 attempts) before surfacing the failure. -/
theorem auth_failure_aborts_with_retries (env : Env) (cfg : PiholeConfig) (r : Response)
    (hr : env Request.postAuth = fun _ => Attempt.http r)
    (hbad : validateStatus r.status = false) :
    run env (Except.ok (some cfg)) []
      = (Except.ok (some (RunError.axios (AxiosError.badStatus r))),
         [Request.postAuth, Request.deleteAuth]) ∧
    (axiosSend (env Request.postAuth)).2 = 4 := by
  have hsend : axiosSend (env Request.postAuth) = (Except.error (AxiosError.badStatus r), 4) := by
    rw [hr]
    exact axiosSend_const_fail r hbad
  constructor
  · have hbody : runBody env (Except.ok (some cfg)) []
        = (Except.error (RunError.axios (AxiosError.badStatus r)), [Request.postAuth]) := by
      rw [runBody_eval_cfg]
      rw [M.bind_eval_err _ _ _ _ _
        (authenticateWithPihole_reject env [] (AxiosError.badStatus r) (by rw [hsend]))]
      rfl
    rw [run_eval_of_body_err env _ [] [Request.postAuth] _ hbody]
    rfl
  · rw [hsend]

/-- C9: the list-creation loop performs no response-status check — whenever
each POST of a URL resolves without the transport raising an error, the loop
completes successfully and issues exactly one creation request per URL in
order, regardless of the returned status values. -/
theorem addBlocklists_no_status_check (env : Env) (urls : List String)
    (rpost : String → Response) (tr : List Request)
    (h : ∀ u, (axiosSend (env (Request.postList u "block"))).1 = Except.ok (rpost u)) :
    addBlocklists env urls tr
      = (Except.ok (), tr ++ urls.map (fun u => Request.postList u "block")) :=
  addBlocklists_resolved env urls rpost h tr

theorem addBlocklists_no_status_check_witness :
    addBlocklists envOk ["https://u1.example/a.txt"] []
      = (Except.ok (), [Request.postList "https://u1.example/a.txt" "block"]) :=
  addBlocklists_no_status_check envOk ["https://u1.example/a.txt"]
    (fun _ => { status := 200, statusText := "OK", data := RespData.noData }) []
    (fun _ => rfl)

/-- C10: a configuration file that parses to null is normalized to the empty
object (`config || {}`), so the run issues only the authentication and
logout calls — no list-fetch, delete, create, rebuild or DNS-patch call —
and finishes without marking the action failed. -/
theorem nullConfig_only_auth_logout (env : Env) (sta sid : String) (v : Int)
    (hauth : (axiosSend (env Request.postAuth)).1
        = Except.ok { status := 200, statusText := sta, data := RespData.session sid v }) :
    getPiholeConfig (Except.ok Option.none) = M.pure ({} : PiholeConfig) ∧
    run env (Except.ok Option.none) []
      = (Except.ok Option.none, [Request.postAuth, Request.deleteAuth]) := by
  constructor
  · rfl
  · have hbody : runBody env (Except.ok Option.none) [] = (Except.ok (), [Request.postAuth]) := by
      rw [runBody_eval_none]
      rw [M.bind_eval_ok _ _ _ _ _ (authenticateWithPihole_ok env [] sta sid v hauth)]
      simp only [List.nil_append]
      rw [M.bind_eval_ok _ _ _ _ _ (applyLists_skip env {} [Request.postAuth] rfl)]
      rw [applyLocalDnsSettings_skip env {} [Request.postAuth] rfl rfl]
    rw [run_eval_of_body_ok env _ [] [Request.postAuth] hbody]
    rfl

theorem nullConfig_only_auth_logout_witness :
    getPiholeConfig (Except.ok Option.none) = M.pure ({} : PiholeConfig) ∧
    run envOk (Except.ok Option.none) []
      = (Except.ok Option.none, [Request.postAuth, Request.deleteAuth]) :=
  nullConfig_only_auth_logout envOk "OK" "sid-1" 300 rfl

theorem auth_failure_aborts_with_retries_witness :
    run envAuth401 (Except.ok (some ({} : PiholeConfig))) []
      = (Except.ok (some (RunError.axios (AxiosError.badStatus
          { status := 401, statusText := "Unauthorized", data := RespData.noData }))),
         [Request.postAuth, Request.deleteAuth]) ∧
    (axiosSend (envAuth401 Request.postAuth)).2 = 4 :=
  auth_failure_aborts_with_retries envAuth401 {}
    { status := 401, statusText := "Unauthorized", data := RespData.noData } rfl rfl

/-- C2 counterexample: a DesiredConfig whose `blocklists` section is present
but EMPTY does not skip list reconciliation — an empty array is truthy and
is an array, so the fetch and rebuild calls are still issued. -/
theorem emptyBlocklists_section_still_syncs :
    cfgEmptyLists.blocklists = some [] ∧
    (run envOk (Except.ok (some cfgEmptyLists)) []).2.any isListCall = true :=
  ⟨rfl, rfl⟩

/-- C2 amended: for every DesiredConfig whose `blocklists` section is ABSENT,
the run issues no list-fetch, bulk-delete, create or rebuild call, and the
remote list state is left untouched. (When the section is present but empty,
the code still issues the fetch and rebuild calls — and the bulk delete when
the fetched set is nonempty — but creates nothing.) -/
theorem absentBlocklists_no_list_calls (env : Env) (cfg : PiholeConfig)
    (hbl : cfg.blocklists = none) :
    (run env (Except.ok (some cfg)) []).2.any isListCall = false ∧
    ∀ remote, listState remote (run env (Except.ok (some cfg)) []).2 = remote := by
  have hbody : TraceOnly (fun r => isListCall r = false) (runBody env (Except.ok (some cfg))) := by
    rw [runBody_eval_cfg]
    refine traceOnly_bind _ _ _ (traceOnly_authenticate _ env rfl) (fun _ => ?_)
    refine traceOnly_bind _ _ _ ?_ (fun _ => traceOnly_dns _ env cfg rfl (fun p => rfl))
    apply traceOnly_of_snd_eq
    intro tr
    rw [applyLists_skip env cfg tr hbl]
  have hrun := run_trace_only (fun r => isListCall r = false) env (Except.ok (some cfg)) rfl hbody
  obtain ⟨ds, hds, hq⟩ := hrun []
  simp only [List.nil_append] at hds
  constructor
  · rw [hds]
    exact List.any_eq_false.mpr (fun r hr => by simp [hq r hr])
  · intro remote
    rw [hds]
    exact listState_nonListCall ds (fun r hr => hq r hr) remote

theorem absentBlocklists_no_list_calls_witness :
    (run envOk (Except.ok (some ({} : PiholeConfig))) []).2.any isListCall = false ∧
    ∀ remote, listState remote (run envOk (Except.ok (some ({} : PiholeConfig))) []).2 = remote :=
  absentBlocklists_no_list_calls envOk {} rfl

/-- C6: whenever the DNS reconciler issues its patch call, the trace shows
exactly one warm-up read of the configuration endpoint immediately before
it; and since two environments differing only in how they answer that
warm-up read produce identical runs (same result, same trace), the warm-up's
response or error is discarded and affects neither the patch call nor the
outcome of the run. -/
theorem warmup_read_once_and_discarded (env env' : Env) (p : DnsPatchPayload)
    (src : Except ErrMsg (Option PiholeConfig)) (tr : List Request)
    (h : ∀ req, req ≠ Request.getConfig → env req = env' req) :
    (patchPiholeConfig env p tr).2 = tr ++ [Request.getConfig, Request.patchConfig p] ∧
    run env src = run env' src := by
  refine ⟨patchPiholeConfig_snd env p tr, ?_⟩
  exact run_congr env env' src
    (h _ (fun hc => Request.noConfusion hc))
    (h _ (fun hc => Request.noConfusion hc))
    (fun items => h _ (fun hc => Request.noConfusion hc))
    (fun u => h _ (fun hc => Request.noConfusion hc))
    (h _ (fun hc => Request.noConfusion hc))
    (fun pp => h _ (fun hc => Request.noConfusion hc))

theorem warmup_read_once_and_discarded_witness :
    (patchPiholeConfig envOk payload0 []).2 = [Request.getConfig, Request.patchConfig payload0] ∧
    run envOk (Except.ok Option.none) = run envOk (Except.ok Option.none) :=
  warmup_read_once_and_discarded envOk envOk payload0 (Except.ok Option.none) [] (fun _ _ => rfl)

/-- C7: on every run — whatever the configuration source and however the
environment answers (success or failure at any stage) — the logout call
appears exactly once in the trace; the run's final result is always an
`Except.ok` (never an escaped exception), and it is unchanged if the
environment's answers to the logout call are replaced by any others, so a
logout failure is never propagated and never turns a successful run into a
failure. -/
theorem logout_exactly_once_never_fatal (env env' : Env)
    (src : Except ErrMsg (Option PiholeConfig))
    (h : ∀ req, req ≠ Request.deleteAuth → env req = env' req) :
    (run env src []).2.countP (fun r => decide (r = Request.deleteAuth)) = 1 ∧
    run env src [] = run env' src [] ∧
    ∃ res tr1, run env src [] = (Except.ok res, tr1) := by
  have hbody : TraceOnly (fun r => r ≠ Request.deleteAuth) (runBody env src) := by
    refine traceOnly_runBody _ env src (fun hc => Request.noConfusion hc)
      (fun hc => Request.noConfusion hc) (fun p hc => Request.noConfusion hc) (fun cfg => ?_)
    exact traceOnly_applyLists _ env cfg (fun hc => Request.noConfusion hc)
      (fun items hc => Request.noConfusion hc) (fun u hc => Request.noConfusion hc)
      (fun hc => Request.noConfusion hc)
  obtain ⟨res, tr1, hrun, hX⟩ := run_eval_struct env src []
  have hT : TraceOnly (fun r => r ≠ Request.deleteAuth)
      (tryCatch (M.bind (runBody env src) (fun _ => M.pure Option.none))
        (fun error => M.pure (some error))) :=
    traceOnly_tryCatch _ _ _ (traceOnly_bind _ _ _ hbody (fun _ => traceOnly_pure _ _))
      (fun e => traceOnly_pure _ _)
  obtain ⟨ds, hds, hq⟩ := hT []
  rw [hX] at hds
  simp only [List.nil_append] at hds
  refine ⟨?_, ?_, ⟨res, tr1 ++ [Request.deleteAuth], hrun⟩⟩
  · rw [hrun]
    show (tr1 ++ [Request.deleteAuth]).countP (fun r => decide (r = Request.deleteAuth)) = 1
    rw [List.countP_append, hds]
    have hz : ds.countP (fun r => decide (r = Request.deleteAuth)) = 0 :=
      List.countP_eq_zero.mpr (fun r hr => by simp [hq r hr])
    rw [hz]
    rfl
  · rw [run_congr env env' src
      (h _ (fun hc => Request.noConfusion hc))
      (h _ (fun hc => Request.noConfusion hc))
      (fun items => h _ (fun hc => Request.noConfusion hc))
      (fun u => h _ (fun hc => Request.noConfusion hc))
      (h _ (fun hc => Request.noConfusion hc))
      (fun pp => h _ (fun hc => Request.noConfusion hc))]

theorem logout_exactly_once_never_fatal_witness :
    (run envOk (Except.ok Option.none) []).2.countP (fun r => decide (r = Request.deleteAuth)) = 1 ∧
    run envOk (Except.ok Option.none) [] = run envOk (Except.ok Option.none) [] ∧
    ∃ res tr1, run envOk (Except.ok Option.none) [] = (Except.ok res, tr1) :=
  logout_exactly_once_never_fatal envOk envOk (Except.ok Option.none) (fun _ _ => rfl)

/-- C3: when the bulk-delete call answers with a status other than 200 or
204 — whether a 2xx status the transport resolves (e.g. 205), which trips
the code's explicit check, or a non-2xx status the transport rejects after
its retries — the run fails with the corresponding fatal error (the
delete-stage API error carrying status and reason, resp. the transport
rejection carrying the response) and no list-creation call is ever issued;
and the bulk delete itself is a no-op — no request at all — when the
fetched existing set is empty. -/
theorem deleteFailure_aborts_run (env : Env) (cfg : PiholeConfig) (urls : List String)
    (remote0 : List ListEntry) (sta st sid : String) (v : Int)
    (hbl : cfg.blocklists = some urls)
    (hauth : (axiosSend (env Request.postAuth)).1
        = Except.ok { status := 200, statusText := sta, data := RespData.session sid v })
    (hlists : (axiosSend (env Request.getLists)).1
        = Except.ok { status := 200, statusText := st, data := RespData.lists remote0 })
    (hne : remote0.length ≠ 0) :
    (∀ r : Response,
      (axiosSend (env (Request.batchDelete
          (remote0.map (fun list => { item := list.address, type := list.type }))))).1
          = Except.ok r →
      ¬(r.status = 200 ∨ r.status = 204) →
      run env (Except.ok (some cfg)) []
        = (Except.ok (some (RunError.thrown (ErrMsg.deleteListsFailed r.status r.statusText))),
           [Request.postAuth, Request.getLists,
            Request.batchDelete (remote0.map (fun list => { item := list.address, type := list.type })),
            Request.deleteAuth]) ∧
      (run env (Except.ok (some cfg)) []).2.any isCreateCall = false) ∧
    (∀ e : AxiosError,
      (axiosSend (env (Request.batchDelete
          (remote0.map (fun list => { item := list.address, type := list.type }))))).1
          = Except.error e →
      run env (Except.ok (some cfg)) []
        = (Except.ok (some (RunError.axios e)),
           [Request.postAuth, Request.getLists,
            Request.batchDelete (remote0.map (fun list => { item := list.address, type := list.type })),
            Request.deleteAuth]) ∧
      (run env (Except.ok (some cfg)) []).2.any isCreateCall = false) ∧
    (∀ tr, deleteExistingLists env [] tr = (Except.ok (), tr)) := by
  have hbodyOf : ∀ e : RunError,
      deleteExistingLists env remote0 ([Request.postAuth] ++ [Request.getLists])
        = (Except.error e,
           [Request.postAuth] ++ [Request.getLists]
             ++ [Request.batchDelete (remote0.map (fun list => { item := list.address, type := list.type }))]) →
      runBody env (Except.ok (some cfg)) []
        = (Except.error e,
           [Request.postAuth, Request.getLists,
            Request.batchDelete (remote0.map (fun list => { item := list.address, type := list.type }))]) := by
    intro e hdelEval
    have haL : applyLists env cfg [Request.postAuth]
        = (Except.error e,
           [Request.postAuth, Request.getLists,
            Request.batchDelete (remote0.map (fun list => { item := list.address, type := list.type }))]) := by
      rw [applyLists_some env cfg urls hbl]
      rw [M.bind_eval_ok _ _ _ _ _ (fetchListsFromPihole_ok env [Request.postAuth] st remote0 hlists)]
      rw [M.bind_eval_err _ _ _ _ _ hdelEval]
      simp
    rw [runBody_eval_cfg]
    rw [M.bind_eval_ok _ _ _ _ _ (authenticateWithPihole_ok env [] sta sid v hauth)]
    simp only [List.nil_append]
    rw [M.bind_eval_err _ _ _ _ _ haL]
  refine ⟨?_, ?_, fun tr => deleteExistingLists_nil env tr⟩
  · intro r hdel hst
    have hbody := hbodyOf _
      (by rw [deleteExistingLists_fail env ([Request.postAuth] ++ [Request.getLists]) remote0 r hne hdel hst])
    have hrun := run_eval_of_body_err env (Except.ok (some cfg)) [] _ _ hbody
    refine ⟨?_, ?_⟩
    · rw [hrun]
      simp
    · rw [hrun]
      simp [isCreateCall]
  · intro e hdel
    have hbody := hbodyOf _
      (by rw [deleteExistingLists_reject env ([Request.postAuth] ++ [Request.getLists]) remote0 e hne hdel])
    have hrun := run_eval_of_body_err env (Except.ok (some cfg)) [] _ _ hbody
    refine ⟨?_, ?_⟩
    · rw [hrun]
      simp
    · rw [hrun]
      simp [isCreateCall]

theorem deleteFailure_aborts_run_witness :
    run envDeleteFails (Except.ok (some cfgP2)) []
      = (Except.ok (some (RunError.thrown (ErrMsg.deleteListsFailed 205 "Reset Content"))),
         [Request.postAuth, Request.getLists,
          Request.batchDelete [{ item := "https://old.example/u3.txt", type := "block" }],
          Request.deleteAuth]) ∧
    (run envDeleteFails (Except.ok (some cfgP2)) []).2.any isCreateCall = false ∧
    (∀ tr, deleteExistingLists envDeleteFails [] tr = (Except.ok (), tr)) := by
  obtain ⟨h1, _h2, h3⟩ := deleteFailure_aborts_run envDeleteFails cfgP2
    ["https://u1.example/a.txt", "https://u2.example/b.txt"]
    [{ address := "https://old.example/u3.txt", type := "block" }]
    "OK" "OK" "sid-1" 300 rfl rfl rfl (by decide)
  obtain ⟨ha, hb⟩ := h1 { status := 205, statusText := "Reset Content", data := RespData.noData }
    rfl (by decide)
  exact ⟨ha, hb, h3⟩

/-- C1: for every run whose DesiredConfig has a `blocklists` section present
and in which every issued API call succeeds, the remote blocklist table at
the end of the run is exactly the `blocklists` section of the DesiredConfig,
each entry registered with kind `block`, regardless of what entries existed
remotely before the run — a full replace, never a union or partial merge. -/
theorem run_full_replace (env : Env) (cfg : PiholeConfig) (urls : List String)
    (remote0 : List ListEntry) (sta st sid : String) (v : Int)
    (rdel rgrav : Response) (rpost : String → Response) (rpatch : DnsPatchPayload → Response)
    (hbl : cfg.blocklists = some urls)
    (hauth : (axiosSend (env Request.postAuth)).1
        = Except.ok { status := 200, statusText := sta, data := RespData.session sid v })
    (hlists : (axiosSend (env Request.getLists)).1
        = Except.ok { status := 200, statusText := st, data := RespData.lists remote0 })
    (hdel : (axiosSend (env (Request.batchDelete
        (remote0.map (fun list => { item := list.address, type := list.type }))))).1
        = Except.ok rdel)
    (hdelst : rdel.status = 200 ∨ rdel.status = 204)
    (hpost : ∀ u, (axiosSend (env (Request.postList u "block"))).1 = Except.ok (rpost u))
    (hgrav : (axiosSend (env Request.postGravity)).1 = Except.ok rgrav)
    (hgravst : rgrav.status = 200)
    (hpatch : ∀ p, (axiosSend (env (Request.patchConfig p))).1 = Except.ok (rpatch p)) :
    (run env (Except.ok (some cfg)) []).1 = Except.ok Option.none ∧
    listState remote0 (run env (Except.ok (some cfg)) []).2
      = urls.map (fun u => { address := u, type := "block" }) := by
  obtain ⟨T1, hT1, hS1⟩ :
      ∃ T1, applyLists env cfg [Request.postAuth] = (Except.ok (), T1) ∧
        listState remote0 T1 = urls.map (fun u => { address := u, type := "block" }) := by
    by_cases hz : remote0.length = 0
    · have hz' : remote0 = [] := List.length_eq_zero.mp hz
      subst hz'
      refine ⟨[Request.postAuth] ++ [Request.getLists]
        ++ urls.map (fun u => Request.postList u "block") ++ [Request.postGravity], ?_, ?_⟩
      · rw [applyLists_some env cfg urls hbl]
        rw [M.bind_eval_ok _ _ _ _ _ (fetchListsFromPihole_ok env [Request.postAuth] st [] hlists)]
        rw [M.bind_eval_ok _ _ _ _ _ (deleteExistingLists_nil env _)]
        rw [M.bind_eval_ok _ _ _ _ _ (addBlocklists_resolved env urls rpost hpost _)]
        rw [updateGravity_ok env _ rgrav hgrav hgravst]
      · rw [listState_append, listState_append, listState_append,
          listState_single, listState_single, listState_single,
          applyRequestOnLists_postAuth, applyRequestOnLists_getLists,
          listState_posts, applyRequestOnLists_gravity]
        simp
    · refine ⟨[Request.postAuth] ++ [Request.getLists]
        ++ [Request.batchDelete (remote0.map (fun list => { item := list.address, type := list.type }))]
        ++ urls.map (fun u => Request.postList u "block") ++ [Request.postGravity], ?_, ?_⟩
      · rw [applyLists_some env cfg urls hbl]
        rw [M.bind_eval_ok _ _ _ _ _ (fetchListsFromPihole_ok env [Request.postAuth] st remote0 hlists)]
        rw [M.bind_eval_ok _ _ _ _ _ (deleteExistingLists_ok env _ remote0 rdel hz hdel hdelst)]
        rw [M.bind_eval_ok _ _ _ _ _ (addBlocklists_resolved env urls rpost hpost _)]
        rw [updateGravity_ok env _ rgrav hgrav hgravst]
      · rw [listState_append, listState_append, listState_append, listState_append,
          listState_single, listState_single, listState_single, listState_single,
          applyRequestOnLists_postAuth, applyRequestOnLists_getLists,
          batchDelete_all, listState_posts, applyRequestOnLists_gravity]
        simp
  have hdns : ∀ tr, ∃ ds, applyLocalDnsSettings env cfg tr = (Except.ok (), tr ++ ds) ∧
      ∀ r2 ∈ ds, isListCall r2 = false := by
    intro tr
    rw [applyLocalDnsSettings_eval]
    by_cases h : (dnsHosts cfg).isNone && (dnsCnames cfg).isNone
    · rw [if_pos h]
      exact ⟨[], by simp, by simp⟩
    · rw [if_neg h]
      refine ⟨[Request.getConfig,
          Request.patchConfig { hosts := dnsHosts cfg, cnames := dnsCnames cfg }],
        patchPiholeConfig_ok env _ tr (rpatch _) (hpatch _), ?_⟩
      intro r2 hr2
      simp at hr2
      rcases hr2 with h1 | h1 <;> subst h1 <;> rfl
  obtain ⟨ds, hdnsT1, hdsq⟩ := hdns T1
  have hbody : runBody env (Except.ok (some cfg)) [] = (Except.ok (), T1 ++ ds) := by
    rw [runBody_eval_cfg]
    rw [M.bind_eval_ok _ _ _ _ _ (authenticateWithPihole_ok env [] sta sid v hauth)]
    simp only [List.nil_append]
    rw [M.bind_eval_ok _ _ _ _ _ hT1]
    exact hdnsT1
  have hrun := run_eval_of_body_ok env (Except.ok (some cfg)) [] _ hbody
  constructor
  · rw [hrun]
  · rw [hrun]
    show listState remote0 ((T1 ++ ds) ++ [Request.deleteAuth]) = _
    rw [listState_append, listState_append, hS1,
      listState_nonListCall ds hdsq, listState_single]
    rfl

theorem run_full_replace_witness :
    (run envPre (Except.ok (some cfgP2)) []).1 = Except.ok Option.none ∧
    listState [{ address := "https://old.example/u3.txt", type := "block" }]
        (run envPre (Except.ok (some cfgP2)) []).2
      = [{ address := "https://u1.example/a.txt", type := "block" },
         { address := "https://u2.example/b.txt", type := "block" }] :=
  run_full_replace envPre cfgP2
    ["https://u1.example/a.txt", "https://u2.example/b.txt"]
    [{ address := "https://old.example/u3.txt", type := "block" }]
    "OK" "OK" "sid-1" 300
    { status := 204, statusText := "No Content", data := RespData.noData }
    { status := 200, statusText := "OK", data := RespData.noData }
    (fun _ => { status := 200, statusText := "OK", data := RespData.noData })
    (fun _ => { status := 200, statusText := "OK", data := RespData.noData })
    rfl rfl rfl rfl (Or.inr rfl) (fun _ => rfl) rfl rfl (fun _ => rfl)

end PiholeSync
